import Mathlib

/-!
Verification of the Project-Delay-Risk-AI core: a shallow embedding of the
project simulator (src/project_simulator), the ingestion/normalization and
feature stages (src/data_pipeline), the rule engine (src/models/rules.py),
the hybrid scorer (src/models/hybrid_risk.py) and the what-if engine
(src/decision_support/what_if.py), together with proofs of the spec's
testable properties.

Python floats are embedded as rationals (ℚ); Python dict/Series feature
records are embedded as association lists with a get-with-default-zero
accessor, mirroring `row.get(field, 0)` / pandas label access.
-/

set_option maxRecDepth 4000

namespace ProjectDelayRisk

/-- A feature record: association list from field name to numeric value,
embedding the Python dict / pandas Series rows used by the rule engine and
the what-if engine. -/
def Row := List (String × ℚ)

instance : DecidableEq Row := by unfold Row; infer_instance

/-- `row.get(field, 0)`: value of the first binding of `f`, defaulting to 0
when the field is absent. -/
def getField (row : Row) (f : String) : ℚ :=
  match row.find? (fun p => p.1 == f) with
  | some p => p.2
  | none => 0

/-- `field in row.index`: whether the field is present. -/
def hasField (row : Row) (f : String) : Bool :=
  row.any (fun p => p.1 == f)

/-- Sets every binding of field `f` to `v` (pandas label assignment). -/
def setField (row : Row) (f : String) (v : ℚ) : Row :=
  row.map (fun p => if p.1 == f then (p.1, v) else p)

-- ------------------------------------------------------------------
-- Rule engine (src/models/rules.py)
-- ------------------------------------------------------------------

/-- One entry of the `RULES` list in src/models/rules.py. -/
structure Rule where
  field : String
  threshold : ℚ
  score : Nat
  severity : String
  reason : String
  rationale : String
deriving DecidableEq

/-- A reason returned by the rule engine: the dict {text, severity}. -/
structure Reason where
  text : String
  severity : String
deriving DecidableEq

/-- The fixed ordered rule list `RULES` of src/models/rules.py. -/
def RULES : List Rule :=
  [ ⟨"total_blocked_events", 3, 25, "critical",
      "Frequent task blocking (3+ events)",
      "Recurring blocks indicate systemic issues beyond random disruptions"⟩,
    ⟨"dependencies", 2, 15, "warning",
      "Heavy dependency constraints (2+ deps)",
      "High coupling increases coordination overhead and failure propagation"⟩,
    ⟨"no_resource_available", 1, 20, "critical",
      "Insufficient resource availability",
      "Resource bottlenecks are a primary cause of project delays"⟩,
    ⟨"rework_count", 2, 15, "warning",
      "Repeated rework events (2+ occurrences)",
      "Rework indicates quality issues or requirement instability"⟩,
    ⟨"max_progress_gap", 4, 15, "warning",
      "Long progress stagnation (4+ days)",
      "Large gaps often hide problems or indicate blocked work"⟩ ]

/-- Whether a rule fires on a record: `row.get(rule.field, 0) >= rule.threshold`. -/
def ruleFires (row : Row) (r : Rule) : Bool :=
  decide (r.threshold ≤ getField row r.field)

/-- The body of the rule loop of `rule_based_risk`: a firing rule adds its
contribution to the score and appends its reason. -/
def ruleStep (row : Row) (acc : Nat × List Reason) (rule : Rule) : Nat × List Reason :=
  if ruleFires row rule then
    (acc.1 + rule.score, acc.2 ++ [⟨rule.reason, rule.severity⟩])
  else acc

/-- `rule_based_risk` of src/models/rules.py: fold over `RULES` accumulating
score and reasons, then cap the score at 100 (`min(score, 100)`). -/
def rule_based_risk (row : Row) : Nat × List Reason :=
  let acc := RULES.foldl (ruleStep row) (0, [])
  (min acc.1 100, acc.2)

-- ------------------------------------------------------------------
-- Hybrid scorer (src/models/hybrid_risk.py)
-- ------------------------------------------------------------------

/-- Python `int(x)`: truncation toward zero on a rational. -/
def pyInt (q : ℚ) : Int :=
  if 0 ≤ q then ⌊q⌋ else ⌈q⌉

/-- Round-half-to-even on a rational, embedding Python `round`. -/
def roundHalfEven (q : ℚ) : Int :=
  if q - ⌊q⌋ < 1/2 then ⌊q⌋
  else if 1/2 < q - ⌊q⌋ then ⌊q⌋ + 1
  else if ⌊q⌋ % 2 = 0 then ⌊q⌋ else ⌊q⌋ + 1

/-- Python `round(x, 3)` embedded on rationals. -/
def pyRound3 (q : ℚ) : ℚ :=
  (roundHalfEven (q * 1000) : ℚ) / 1000

/-- Values appearing in the dict returned by `hybrid_risk_score`. -/
inductive RVal where
  | int (n : Int)
  | str (s : String)
  | rat (q : ℚ)
  | reasonList (rs : List Reason)
  | dict (d : List (String × ℚ))
deriving DecidableEq

/-- A Python dict with string keys, as returned by `hybrid_risk_score`. -/
def RDict := List (String × RVal)

instance : DecidableEq RDict := by unfold RDict; infer_instance

/-- Key lookup in a returned dict. -/
def dget (d : RDict) (k : String) : Option RVal :=
  (d.find? (fun p => p.1 == k)).map (fun p => p.2)

/-- The optional `config` argument of `hybrid_risk_score`: each field models
one `config.get(...).get(...)` lookup, `none` meaning the key is absent so
the default applies. -/
structure RiskConfig where
  rule_weight : Option ℚ
  ml_weight : Option ℚ
  high : Option Int
  medium : Option Int

def DEFAULT_RULE_WEIGHT : ℚ := 6/10
def DEFAULT_ML_WEIGHT : ℚ := 4/10
def DEFAULT_HIGH_THRESHOLD : Int := 70
def DEFAULT_MEDIUM_THRESHOLD : Int := 40

/-- The rule weight actually applied for a given config. -/
def appliedRuleWeight (config : Option RiskConfig) : ℚ :=
  match config with
  | some c => c.rule_weight.getD DEFAULT_RULE_WEIGHT
  | none => DEFAULT_RULE_WEIGHT

/-- The ML weight actually applied for a given config. -/
def appliedMlWeight (config : Option RiskConfig) : ℚ :=
  match config with
  | some c => c.ml_weight.getD DEFAULT_ML_WEIGHT
  | none => DEFAULT_ML_WEIGHT

/-- The high threshold actually applied for a given config. -/
def appliedHigh (config : Option RiskConfig) : Int :=
  match config with
  | some c => c.high.getD DEFAULT_HIGH_THRESHOLD
  | none => DEFAULT_HIGH_THRESHOLD

/-- The medium threshold actually applied for a given config. -/
def appliedMedium (config : Option RiskConfig) : Int :=
  match config with
  | some c => c.medium.getD DEFAULT_MEDIUM_THRESHOLD
  | none => DEFAULT_MEDIUM_THRESHOLD

/-- `hybrid_risk_score` of src/models/hybrid_risk.py.  Returns the literal
dict built at the end of the function: note its keys are exactly
risk_score, risk_level, reasons, ml_probability, rule_score, weights_used. -/
def hybrid_risk_score (row : Row) (ml_probability : ℚ)
    (config : Option RiskConfig) : RDict :=
  let rule_weight := appliedRuleWeight config
  let ml_weight := appliedMlWeight config
  let high_threshold := appliedHigh config
  let medium_threshold := appliedMedium config
  let rb := rule_based_risk row
  let rule_score := rb.1
  let reasons := rb.2
  let final_score₀ : Int :=
    pyInt (rule_weight * (rule_score : ℚ) + ml_weight * (ml_probability * 100))
  let final_score := max 0 (min 100 final_score₀)
  let level : String :=
    if high_threshold ≤ final_score then "High"
    else if medium_threshold ≤ final_score then "Medium"
    else "Low"
  [ ("risk_score", RVal.int final_score),
    ("risk_level", RVal.str level),
    ("reasons", RVal.reasonList reasons),
    ("ml_probability", RVal.rat (pyRound3 ml_probability)),
    ("rule_score", RVal.int (rule_score : Int)),
    ("weights_used", RVal.dict
      [("rule_weight", rule_weight), ("ml_weight", ml_weight)]) ]

-- ------------------------------------------------------------------
-- What-if engine (src/decision_support/what_if.py)
-- ------------------------------------------------------------------

/-- The `effects` maps of the `SCENARIOS` dict of
src/decision_support/what_if.py, in declaration order. -/
def SCENARIOS : List (String × List (String × Int)) :=
  [ ("add_resource",
      [("no_resource_available", -1), ("total_blocked_events", -1)]),
    ("reduce_dependencies",
      [("dependencies", -2), ("total_blocked_events", -1)]),
    ("improve_process",
      [("rework_count", -1), ("max_progress_gap", -2)]) ]

/-- The error message raised for an unknown scenario (the Python message is
an f-string listing the valid names; embedded without the quoting). -/
def unknownScenarioMsg (name : String) : String :=
  "Unknown scenario " ++ name ++
    ". Valid: add_resource, reduce_dependencies, improve_process"

/-- One step of the effects loop of `simulate_what_if`: if the feature is
present in the record, set it to `max(0, current + delta)`. -/
def applyEffect (row : Row) (e : String × Int) : Row :=
  if hasField row e.1 then
    setField row e.1 (max 0 (getField row e.1 + (e.2 : ℚ)))
  else row

/-- `simulate_what_if` of src/decision_support/what_if.py: unknown scenario
names raise ValueError (embedded as `Except.error`), otherwise all the
scenario's effects are applied in order to fields present in the record. -/
def simulate_what_if (row : Row) (name : String) : Except String Row :=
  match SCENARIOS.find? (fun p => p.1 == name) with
  | none => Except.error (unknownScenarioMsg name)
  | some p => Except.ok (p.2.foldl applyEffect row)

-- ------------------------------------------------------------------
-- Entities (src/project_simulator/entities.py)
-- ------------------------------------------------------------------

/-- The `Task` dataclass execution-relevant fields.  Statuses are the raw
strings the simulator compares against ("not_started", "in_progress",
"blocked", "completed"). -/
structure Task where
  task_id : String
  planned_duration : Int
  complexity : Int
  priority : String
  required_skill : String
  dependencies : List String
  actual_start : Option Int
  actual_end : Option Int
  progress : ℚ
  status : String
deriving DecidableEq

/-- The `Resource` dataclass. -/
structure Resource where
  resource_id : String
  skill_type : String
  efficiency : ℚ
  availability : Int
  assigned_task : Option String
deriving DecidableEq

/-- The `EventLog` dataclass. -/
structure EventLog where
  day : Int
  task_id : String
  event_type : String
  reason : Option String
deriving DecidableEq

-- ------------------------------------------------------------------
-- Simulator (src/project_simulator/simulator.py)
-- ------------------------------------------------------------------

/-- The noise configuration dict. -/
structure Noise where
  disruption_prob : ℚ
  rework_prob : ℚ
  external_block_prob : ℚ
  log_drop_prob : ℚ
  log_delay_min : Int
  log_delay_max : Int
deriving DecidableEq

/-- The default noise configuration built in `ProjectSimulator.__init__`. -/
def defaultNoise : Noise :=
  ⟨1/10, 1/20, 1/20, 3/20, 1, 3⟩

/-- Mutable simulator state: the fields of `ProjectSimulator` plus a cursor
`ridx` into the pseudo-random stream (the position of the global `random`
generator after `random.seed(seed)`). -/
structure SimState where
  tasks : List Task
  resources : List Resource
  logs : List EventLog
  delayed_logs : List EventLog
  day : Int
  noise : Noise
  ridx : Nat
deriving DecidableEq

/-- Consume one pseudo-random draw. -/
def bump (st : SimState) : SimState :=
  {st with ridx := st.ridx + 1}

/-- The value of the next pseudo-random draw, a rational in [0,1). -/
def rand (g : Nat → ℚ) (st : SimState) : ℚ :=
  g st.ridx

/-- `random.randint(a, b)` embedded on the draw stream. -/
def randomDelay (g : Nat → ℚ) (st : SimState) (a b : Int) : Int :=
  a + ⌊rand g st * ((b - a + 1 : Int) : ℚ)⌋

/-- `ProjectSimulator.log_event`: drop the event with probability
`log_drop_prob`; otherwise with probability 0.3 enqueue a copy whose day is
shifted by `random.randint(*log_delay_range)`; otherwise append it. -/
def log_event (g : Nat → ℚ) (e : EventLog) (st : SimState) : SimState :=
  if rand g st < st.noise.log_drop_prob then bump st
  else if rand g (bump st) < 3/10 then
    let d := randomDelay g (bump (bump st)) st.noise.log_delay_min st.noise.log_delay_max
    {bump (bump (bump st)) with
      delayed_logs := st.delayed_logs ++ [{e with day := e.day + d}]}
  else
    {bump (bump st) with logs := st.logs ++ [e]}

/-- `ProjectSimulator.dependencies_completed`: every dependency's task (by
id lookup in the task dict) has status "completed".  A dependency id absent
from the dict (a KeyError in Python) is embedded as not-completed; on the
well-formed inputs the spec admits (dependencies form a DAG over existing
tasks) the two agree. -/
def dependencies_completed (tasks : List Task) (task : Task) : Bool :=
  task.dependencies.all (fun dep =>
    match tasks.find? (fun t => t.task_id == dep) with
    | some t => t.status == "completed"
    | none => false)

/-- Replace the task at index `i`. -/
def setTask (st : SimState) (i : Nat) (t : Task) : SimState :=
  {st with tasks := st.tasks.set i t}

/-- Replace the resource at index `j`. -/
def setResource (st : SimState) (j : Nat) (r : Resource) : SimState :=
  {st with resources := st.resources.set j r}

/-- The start-or-resume block of `simulate_day`: a not-started or blocked
task transitions to in_progress, recording `actual_start` the first time. -/
def startTask (day : Int) (task : Task) : Task :=
  if task.status = "not_started" ∨ task.status = "blocked" then
    {task with
      status := "in_progress",
      actual_start :=
        if task.status = "not_started" ∧ task.actual_start = none
        then some day else task.actual_start}
  else task

/-- The completion block of `simulate_day`: defensively record
`actual_start`, mark completed, record `actual_end`. -/
def completeTask (day : Int) (t : Task) : Task :=
  {t with
    actual_start := if t.actual_start = none then some day else t.actual_start,
    status := "completed",
    actual_end := some day}

/-- The body of the per-task loop of `ProjectSimulator.simulate_day`,
processing the task at index `i` of the (insertion-ordered) task dict. -/
def stepTask (g : Nat → ℚ) (st : SimState) (i : Nat) : SimState :=
  match st.tasks[i]? with
  | none => st
  | some task =>
    if task.status = "completed" then st
    else
      -- external random block
      if rand g st < st.noise.external_block_prob then
        log_event g ⟨st.day, task.task_id, "blocked", some "external_block"⟩
          (setTask (bump st) i {task with status := "blocked"})
      -- dependency block
      else if dependencies_completed st.tasks task = false then
        log_event g ⟨st.day, task.task_id, "blocked", some "dependencies"⟩
          (setTask (bump st) i {task with status := "blocked"})
      else
        -- start task (or resume from blocked)
        let started := startTask st.day task
        let stB := setTask (bump st) i started
        let stC := if task.status = "not_started"
                   then log_event g ⟨st.day, task.task_id, "start", none⟩ stB
                   else stB
        -- resource allocation: first unassigned resource
        match stC.resources.findIdx? (fun r => r.assigned_task.isNone) with
        | none =>
            log_event g ⟨st.day, task.task_id, "blocked", some "no_resource_available"⟩
              (setTask stC i {started with status := "blocked"})
        | some j =>
          match stC.resources[j]? with
          | none => stC
          | some resource =>
            let stD := setResource stC j {resource with assigned_task := some task.task_id}
            -- skill mismatch
            let penalty : ℚ := if resource.skill_type = task.required_skill then 1 else 1/2
            let reason : Option String :=
              if resource.skill_type = task.required_skill then none else some "skill_mismatch"
            -- random disruption: skip progress entirely this day
            if rand g stD < st.noise.disruption_prob then
              log_event g ⟨st.day, task.task_id, "blocked", some "random_disruption"⟩ (bump stD)
            else
              -- progress update: U(0.05,0.15) * efficiency * penalty / complexity
              let base : ℚ := 1/20 + (3/20 - 1/20) * rand g (bump stD)
              let incr : ℚ := base * resource.efficiency * penalty / (task.complexity : ℚ)
              let task1 := {started with progress := started.progress + incr}
              let stG := log_event g ⟨st.day, task.task_id, "progress", reason⟩
                (setTask (bump (bump stD)) i task1)
              -- rework: regress progress, floored at 0
              let regressed : ℚ := max 0 (task1.progress - (1/20 + (1/5 - 1/20) * rand g (bump stG)))
              let task2 :=
                if rand g stG < st.noise.rework_prob then {task1 with progress := regressed}
                else task1
              let stI :=
                if rand g stG < st.noise.rework_prob then
                  log_event g ⟨st.day, task.task_id, "rework", some "rework"⟩
                    (setTask (bump (bump stG)) i task2)
                else bump stG
              -- completion
              if 1 ≤ task2.progress then
                log_event g ⟨st.day, task.task_id, "complete", none⟩
                  (setTask stI i (completeTask st.day task2))
              else stI

/-- The start-of-day block of `simulate_day`: advance the day counter and
flush delayed logs whose materialization day has come, in enqueue order. -/
def dayStart (st : SimState) : SimState :=
  let d := st.day + 1
  {st with
    day := d,
    logs := st.logs ++ st.delayed_logs.filter (fun l => decide (l.day ≤ d)),
    delayed_logs := st.delayed_logs.filter (fun l => decide (d < l.day))}

/-- The end-of-day block: `release_resources`. -/
def releaseAll (st : SimState) : SimState :=
  {st with resources := st.resources.map (fun r => {r with assigned_task := none})}

/-- `ProjectSimulator.simulate_day`: advance/flush, run the per-task state
machine over every task in insertion order, release all resources. -/
def simulate_day (g : Nat → ℚ) (st : SimState) : SimState :=
  let st1 := dayStart st
  releaseAll ((List.range st1.tasks.length).foldl (stepTask g) st1)

/-- `ProjectSimulator.run`: iterate `simulate_day` up to `max_days` times,
stopping early once every task is completed. -/
def runAux (g : Nat → ℚ) (st : SimState) : Nat → SimState
  | 0 => st
  | n + 1 =>
    let st' := simulate_day g st
    if st'.tasks.all (fun t => t.status == "completed") then st'
    else runAux g st' n

/-- The task dict `{t.task_id: t for t in tasks}` as an ordered list: keys
keep their first-insertion position, a duplicated key's value is the last
one written. -/
def dedupTasks (ts : List Task) : List Task :=
  ts.foldl
    (fun acc t =>
      if acc.any (fun u => u.task_id == t.task_id) then
        acc.map (fun u => if u.task_id == t.task_id then t else u)
      else acc ++ [t])
    []

/-- A 64-bit linear congruential generator, deterministically embedding the
stream of the global `random` generator after `random.seed(seed)`. -/
def lcg (s : Nat) : Nat :=
  (6364136223846793005 * s + 1442695040888963407) % (2 ^ 64)

/-- The pseudo-random stream determined by a seed: each draw is a rational
in [0,1).  Modelling convention: every primitive call on the seeded global
generator (`random.random`, one `random.uniform`, one `random.randint`)
consumes exactly one draw of this stream, in program order; the claims
proved here hold for every stream, so nothing depends on the particular
generator beyond its determinism from the seed. -/
def seedStream (seed : Int) (n : Nat) : ℚ :=
  ((lcg^[n + 1] ((seed % (2 ^ 64)).toNat) % 2 ^ 53 : Nat) : ℚ) / 2 ^ 53

/-- `ProjectSimulator.__init__`: build the initial state from tasks,
resources and an optional noise config (defaulting like `noise_config or
{...}`). -/
def mkSimulator (tasks : List Task) (resources : List Resource)
    (noise : Option Noise) : SimState :=
  { tasks := dedupTasks tasks,
    resources := resources,
    logs := [],
    delayed_logs := [],
    day := 0,
    noise := noise.getD defaultNoise,
    ridx := 0 }

/-- A full seeded run: `ProjectSimulator(tasks, resources, seed, noise).run(max_days)`. -/
def runSeeded (tasks : List Task) (resources : List Resource) (seed : Int)
    (noise : Option Noise) (max_days : Nat) : SimState :=
  runAux (seedStream seed) (mkSimulator tasks resources noise) max_days

/-- The states reachable from a simulator state by the simulator's own
micro-steps: the start-of-day flush, any per-task step, and the end-of-day
resource release. -/
inductive SimReachable (g : Nat → ℚ) : SimState → SimState → Prop where
  | refl (s : SimState) : SimReachable g s s
  | flush {s s' : SimState} : SimReachable g s s' → SimReachable g s (dayStart s')
  | step {s s' : SimState} (i : Nat) :
      SimReachable g s s' → SimReachable g s (stepTask g s' i)
  | release {s s' : SimState} : SimReachable g s s' → SimReachable g s (releaseAll s')

-- ------------------------------------------------------------------
-- Ingestion / normalization (src/data_pipeline/ingest.py, normalize.py)
-- ------------------------------------------------------------------

/-- One row of the raw tasks table built by `ingest_simulation`. -/
structure TaskRow where
  task_id : String
  planned_duration : Int
  complexity : Int
  priority : String
  required_skill : String
  num_dependencies : Nat
  actual_start : Option Int
  actual_end : Option Int
  status : String
  progress : ℚ
deriving DecidableEq

/-- One row of the events table: the dict built per event by
`ingest_simulation`, later updated by `normalize_events`. -/
structure EventRow where
  day : Int
  task_id : String
  event_type : String
  reason : Option String
  observed_day : Int
  is_delayed_log : Bool
deriving DecidableEq

/-- The two raw tables returned by `ingest_simulation`. -/
structure RawTables where
  tasks : List TaskRow
  events : List EventRow
deriving DecidableEq

/-- `ingest_simulation` of src/data_pipeline/ingest.py: flatten tasks and
events; `observed_day` is initialized to the event's `day` and
`is_delayed_log` to False. -/
def ingest_simulation (st : SimState) : RawTables :=
  { tasks := st.tasks.map (fun t =>
      ⟨t.task_id, t.planned_duration, t.complexity, t.priority,
       t.required_skill, t.dependencies.length, t.actual_start,
       t.actual_end, t.status, t.progress⟩),
    events := st.logs.map (fun e =>
      ⟨e.day, e.task_id, e.event_type, e.reason, e.day, false⟩) }

/-- `normalize_events` of src/data_pipeline/normalize.py: recompute
`is_delayed_log` as `observed_day > day` and sort by `observed_day`. -/
def normalize_events (events : List EventRow) : List EventRow :=
  (events.map (fun e => {e with is_delayed_log := decide (e.day < e.observed_day)})).mergeSort
    (fun a b => a.observed_day ≤ b.observed_day)

-- ------------------------------------------------------------------
-- Feature engine (src/data_pipeline/features.py), per-reason block counts
-- ------------------------------------------------------------------

/-- The per-(task, reason) blocked-event count of `compute_block_features`:
the size of the groupby cell for `(tid, reason)` restricted to events of
type "blocked". -/
def blockReasonCount (events : List EventRow) (tid reason : String) : Nat :=
  (events.filter (fun e =>
    e.event_type == "blocked" && e.task_id == tid && e.reason == some reason)).length

-- ------------------------------------------------------------------
-- Basic lemmas on feature records
-- ------------------------------------------------------------------

theorem getField_cons (q : String × ℚ) (l : Row) (g : String) :
    getField (q :: l) g = if (q.1 == g) = true then q.2 else getField l g := by
  unfold getField
  cases hq : (q.1 == g) <;> simp [List.find?, hq]

theorem hasField_cons (q : String × ℚ) (l : Row) (g : String) :
    hasField (q :: l) g = ((q.1 == g) || hasField l g) := rfl

theorem setField_cons (q : String × ℚ) (l : Row) (f : String) (v : ℚ) :
    setField (q :: l) f v =
      (if (q.1 == f) = true then (q.1, v) else q) :: setField l f v := rfl

theorem hasField_setField (row : Row) (f g : String) (v : ℚ) :
    hasField (setField row f v) g = hasField row g := by
  induction row with
  | nil => rfl
  | cons q rest ih =>
    rw [setField_cons, hasField_cons, hasField_cons, ih]
    by_cases hq : (q.1 == f) = true
    · rw [if_pos hq]
    · rw [if_neg hq]

theorem getField_setField_self (row : Row) (f : String) (v : ℚ)
    (h : hasField row f = true) : getField (setField row f v) f = v := by
  induction row with
  | nil => simp [hasField] at h
  | cons q rest ih =>
    rw [setField_cons]
    by_cases hq : (q.1 == f) = true
    · rw [if_pos hq, getField_cons]
      simp [hq]
    · rw [if_neg hq, getField_cons, if_neg hq]
      apply ih
      rw [hasField_cons] at h
      simpa [hq] using h

theorem getField_setField_ne (row : Row) (f g : String) (v : ℚ)
    (h : g ≠ f) : getField (setField row f v) g = getField row g := by
  induction row with
  | nil => rfl
  | cons q rest ih =>
    rw [setField_cons]
    by_cases hq : (q.1 == f) = true
    · have hqf : q.1 = f := by simpa using hq
      have hg : (q.1 == g) = false := by
        rw [beq_eq_false_iff_ne, hqf]
        exact fun e => h e.symm
      rw [if_pos hq, getField_cons, getField_cons]
      simp only [hg, Bool.false_eq_true, if_false]
      exact ih
    · rw [if_neg hq, getField_cons, getField_cons]
      by_cases hqg : (q.1 == g) = true
      · rw [if_pos hqg, if_pos hqg]
      · rw [if_neg hqg, if_neg hqg]
        exact ih

theorem hasField_applyEffect (row : Row) (e : String × Int) (g : String) :
    hasField (applyEffect row e) g = hasField row g := by
  unfold applyEffect
  split
  · exact hasField_setField row e.1 g _
  · rfl

theorem getField_applyEffect_ne (row : Row) (e : String × Int) (g : String)
    (h : g ≠ e.1) : getField (applyEffect row e) g = getField row g := by
  unfold applyEffect
  split
  · exact getField_setField_ne row e.1 g _ h
  · rfl

theorem getField_applyEffect_self (row : Row) (e : String × Int)
    (h : hasField row e.1 = true) :
    getField (applyEffect row e) e.1 = max 0 (getField row e.1 + (e.2 : ℚ)) := by
  unfold applyEffect
  rw [if_pos h]
  exact getField_setField_self row e.1 _ h

-- ------------------------------------------------------------------
-- C4: the rule engine
-- ------------------------------------------------------------------

theorem ruleStep_foldl (row : Row) (rules : List Rule) :
    ∀ (s : Nat) (rs : List Reason),
      rules.foldl (ruleStep row) (s, rs) =
        (s + ((rules.filter (ruleFires row)).map Rule.score).sum,
         rs ++ (rules.filter (ruleFires row)).map
           (fun r => (⟨r.reason, r.severity⟩ : Reason))) := by
  induction rules with
  | nil => intro s rs; simp
  | cons r rest ih =>
    intro s rs
    by_cases h : ruleFires row r
    · simp [ruleStep, h, ih, List.filter_cons, add_assoc]
    · simp [ruleStep, h, ih, List.filter_cons]

/-- C4: for every feature record, `rule_based_risk` returns the sum of the
contributions of exactly the rules whose field value (default 0 when the
field is absent) is at least the rule's threshold, capped at 100 (hence in
[0, 100]), together with the fired rules' reasons in declaration order. -/
theorem c4_rule_engine (row : Row) :
    rule_based_risk row =
      (min (((RULES.filter (ruleFires row)).map Rule.score).sum) 100,
       (RULES.filter (ruleFires row)).map
         (fun r => (⟨r.reason, r.severity⟩ : Reason))) ∧
    (rule_based_risk row).1 ≤ 100 ∧ 0 ≤ ((rule_based_risk row).1 : Int) := by
  have h := ruleStep_foldl row RULES 0 []
  refine ⟨?_, ?_, ?_⟩
  · simp [rule_based_risk, h]
  · simp [rule_based_risk, h]
  · exact Int.ofNat_nonneg _

-- ------------------------------------------------------------------
-- C5: the hybrid scorer
-- ------------------------------------------------------------------

theorem clamp_pyInt (q : ℚ) :
    max 0 (min 100 (pyInt q)) = max 0 (min 100 ⌊q⌋) := by
  by_cases h : 0 ≤ q
  · simp [pyInt, h]
  · push_neg at h
    have hc : ⌈q⌉ ≤ 0 := Int.ceil_le.mpr (by exact_mod_cast h.le)
    have hf : ⌊q⌋ ≤ 0 := le_trans (Int.floor_le_ceil q) hc
    rw [pyInt, if_neg (not_le.mpr h)]
    rw [min_eq_right (le_trans hc (by norm_num)), min_eq_right (le_trans hf (by norm_num))]
    rw [max_eq_left hc, max_eq_left hf]

/-- C5: with thresholds medium < high, the hybrid scorer returns
final score = floor(rule_weight * rule_score + ml_weight * ml_probability * 100)
clamped to [0, 100], with level High exactly on scores at or above the high
threshold, Medium at or above the medium threshold, else Low; in particular
the level at the high threshold is High, at the medium threshold Medium,
and one below the medium threshold Low. -/
theorem c5_hybrid_scorer (row : Row) (ml rw mw : ℚ) (hi med : Int)
    (hmh : med < hi) :
    let r := hybrid_risk_score row ml (some ⟨some rw, some mw, some hi, some med⟩)
    let fs : Int := max 0 (min 100 ⌊rw * ((rule_based_risk row).1 : ℚ) + mw * (ml * 100)⌋)
    dget r "risk_score" = some (RVal.int fs) ∧
    0 ≤ fs ∧ fs ≤ 100 ∧
    dget r "risk_level" =
      some (RVal.str (if hi ≤ fs then "High" else if med ≤ fs then "Medium" else "Low")) ∧
    (fs = hi → dget r "risk_level" = some (RVal.str "High")) ∧
    (fs = med → dget r "risk_level" = some (RVal.str "Medium")) ∧
    (fs = med - 1 → dget r "risk_level" = some (RVal.str "Low")) := by
  intro r fs
  have hfs : max 0 (min 100 (pyInt (rw * ((rule_based_risk row).1 : ℚ) + mw * (ml * 100)))) = fs :=
    clamp_pyInt _
  have hscore : dget r "risk_score" = some (RVal.int fs) := by
    simp only [r, hybrid_risk_score, appliedRuleWeight, appliedMlWeight, appliedHigh,
      appliedMedium, Option.getD_some, dget, List.find?, hfs]
    rfl
  have hlevel : dget r "risk_level" =
      some (RVal.str (if hi ≤ fs then "High" else if med ≤ fs then "Medium" else "Low")) := by
    simp only [r, hybrid_risk_score, appliedRuleWeight, appliedMlWeight, appliedHigh,
      appliedMedium, Option.getD_some, dget, List.find?, hfs]
    rfl
  refine ⟨hscore, le_max_left _ _, ?_, hlevel, ?_, ?_, ?_⟩
  · have : min 100 ⌊rw * ((rule_based_risk row).1 : ℚ) + mw * (ml * 100)⌋ ≤ 100 :=
      min_le_left _ _
    simp only [fs]
    omega
  · intro heq
    rw [hlevel, if_pos (le_of_eq heq.symm)]
  · intro heq
    rw [hlevel, if_neg (by omega), if_pos (le_of_eq heq.symm)]
  · intro heq
    rw [hlevel, if_neg (by omega), if_neg (by omega)]

/-- Witness for C5 at default weights and thresholds. -/
theorem c5_hybrid_scorer_witness :
    ((40 : Int) < 70) ∧
    (let r := hybrid_risk_score [] (1/2) (some ⟨some (6/10), some (4/10), some 70, some 40⟩)
     let fs : Int := max 0 (min 100 ⌊(6/10 : ℚ) * ((rule_based_risk []).1 : ℚ) + (4/10 : ℚ) * ((1/2 : ℚ) * 100)⌋)
     dget r "risk_score" = some (RVal.int fs) ∧
     0 ≤ fs ∧ fs ≤ 100 ∧
     dget r "risk_level" =
       some (RVal.str (if (70 : Int) ≤ fs then "High" else if (40 : Int) ≤ fs then "Medium" else "Low")) ∧
     (fs = 70 → dget r "risk_level" = some (RVal.str "High")) ∧
     (fs = 40 → dget r "risk_level" = some (RVal.str "Medium")) ∧
     (fs = 40 - 1 → dget r "risk_level" = some (RVal.str "Low"))) :=
  ⟨by decide, c5_hybrid_scorer [] (1/2) (6/10) (4/10) 70 40 (by decide)⟩

-- ------------------------------------------------------------------
-- C6: auditability of the hybrid result
-- ------------------------------------------------------------------

/-- C6 counterexample: with thresholds high = 91 and medium = 17 actually
applied, the returned dict has exactly the six keys risk_score, risk_level,
reasons, ml_probability, rule_score and weights_used — no thresholds key —
and no value in it records 91 or 17: the thresholds actually applied are
not returned. -/
theorem c6_counterexample :
    ((hybrid_risk_score [] 0 (some ⟨some (6/10), some (4/10), some 91, some 17⟩)).map Prod.fst =
      ["risk_score", "risk_level", "reasons", "ml_probability", "rule_score", "weights_used"]) ∧
    (((hybrid_risk_score [] 0 (some ⟨some (6/10), some (4/10), some 91, some 17⟩)).map Prod.snd).all
      (fun v => !(v == RVal.int 91) && !(v == RVal.int 17) &&
                !(v == RVal.rat 91) && !(v == RVal.rat 17)) = true) := by
  constructor
  · rfl
  · with_unfolding_all rfl

/-- C6 amended: the hybrid scorer's result contains the weights actually
applied (under weights_used) and the rule_score component, but its keys are
exactly the six listed ones — the thresholds actually applied are not part
of the result. -/
theorem c6_amended (row : Row) (ml rw mw : ℚ) (hi med : Int) :
    let r := hybrid_risk_score row ml (some ⟨some rw, some mw, some hi, some med⟩)
    dget r "weights_used" =
      some (RVal.dict [("rule_weight", rw), ("ml_weight", mw)]) ∧
    dget r "rule_score" = some (RVal.int ((rule_based_risk row).1 : Int)) ∧
    r.map Prod.fst =
      ["risk_score", "risk_level", "reasons", "ml_probability", "rule_score", "weights_used"] := by
  intro r
  refine ⟨?_, ?_, ?_⟩ <;>
    simp only [r, hybrid_risk_score, appliedRuleWeight, appliedMlWeight, appliedHigh,
      appliedMedium, Option.getD_some, dget, List.find?] <;> rfl

-- ------------------------------------------------------------------
-- C7 and C8: the what-if engine
-- ------------------------------------------------------------------

theorem applyEffect_pair (row : Row) (e1 e2 : String × Int) (f : String) (d : Int)
    (hne : e1.1 ≠ e2.1) (hfd : (f, d) ∈ [e1, e2]) (hpres : hasField row f = true) :
    getField (List.foldl applyEffect row [e1, e2]) f =
      max 0 (getField row f + (d : ℚ)) := by
  have hfold : List.foldl applyEffect row [e1, e2] = applyEffect (applyEffect row e1) e2 := rfl
  rw [hfold]
  simp only [List.mem_cons, List.not_mem_nil, or_false] at hfd
  rcases hfd with h | h
  · obtain ⟨hf, hd⟩ : f = e1.1 ∧ d = e1.2 := by rw [Prod.ext_iff] at h; exact h
    subst hf; subst hd
    rw [getField_applyEffect_ne _ _ _ hne, getField_applyEffect_self _ _ hpres]
  · obtain ⟨hf, hd⟩ : f = e2.1 ∧ d = e2.2 := by rw [Prod.ext_iff] at h; exact h
    subst hf; subst hd
    rw [getField_applyEffect_self _ _ (by rw [hasField_applyEffect]; exact hpres),
      getField_applyEffect_ne _ _ _ (Ne.symm hne)]

/-- C7: for every recognized scenario, every (field, delta) entry of the
scenario's effects with the field present in the record is set to
max(0, old + delta), hence is nonnegative; and the spec's literal example
under add_resource. -/
theorem c7_what_if :
    (∀ (row : Row) (name : String) (effects : List (String × Int)) (out : Row)
       (f : String) (d : Int),
       (name, effects) ∈ SCENARIOS →
       simulate_what_if row name = Except.ok out →
       (f, d) ∈ effects → hasField row f = true →
       getField out f = max 0 (getField row f + (d : ℚ)) ∧ 0 ≤ getField out f) ∧
    simulate_what_if [("no_resource_available", 2), ("total_blocked_events", 5)]
        "add_resource" =
      Except.ok [("no_resource_available", 1), ("total_blocked_events", 4)] := by
  constructor
  · intro row name effects out f d hmem hok hfd hpres
    have hnn : ∀ q : ℚ, getField out f = max 0 q → 0 ≤ getField out f := by
      intro q h; rw [h]; exact le_max_left _ _
    simp only [SCENARIOS, List.mem_cons, List.mem_singleton, Prod.mk.injEq,
      List.not_mem_nil, or_false] at hmem
    rcases hmem with ⟨hn, he⟩ | ⟨hn, he⟩ | ⟨hn, he⟩ <;> subst hn <;> subst he <;>
      simp [simulate_what_if, SCENARIOS, List.find?] at hok <;>
      subst hok <;>
      refine (fun h => ⟨h, hnn _ h⟩) ?_ <;>
      exact applyEffect_pair row _ _ f d (by decide) hfd hpres
  · with_unfolding_all rfl

/-- Witness for C7 on the spec's literal example. -/
theorem c7_what_if_witness :
    getField [("no_resource_available", (1 : ℚ)), ("total_blocked_events", 4)]
        "no_resource_available" =
      max 0 (getField [("no_resource_available", (2 : ℚ)), ("total_blocked_events", 5)]
        "no_resource_available" + ((-1 : Int) : ℚ)) ∧
    0 ≤ getField [("no_resource_available", (1 : ℚ)), ("total_blocked_events", 4)]
        "no_resource_available" :=
  c7_what_if.1 [("no_resource_available", 2), ("total_blocked_events", 5)]
    "add_resource" [("no_resource_available", -1), ("total_blocked_events", -1)]
    [("no_resource_available", 1), ("total_blocked_events", 4)]
    "no_resource_available" (-1) (by decide) (by with_unfolding_all rfl)
    (by decide) (by decide)

/-- C8: `simulate_what_if` raises exactly on scenario names outside the
three defined scenarios, with its usage-error message; an unrecognized name
never yields a result at all, in particular never the unchanged input. -/
theorem c8_unknown_scenario (row : Row) (name : String) :
    ((∃ out, simulate_what_if row name = Except.ok out) ↔
      name ∈ ["add_resource", "reduce_dependencies", "improve_process"]) ∧
    (name ∉ ["add_resource", "reduce_dependencies", "improve_process"] →
      simulate_what_if row name = Except.error (unknownScenarioMsg name) ∧
      simulate_what_if row name ≠ Except.ok row) := by
  by_cases h1 : name = "add_resource"
  · subst h1
    exact ⟨⟨fun _ => by decide, fun _ => ⟨_, rfl⟩⟩, fun h => absurd (by decide) h⟩
  · by_cases h2 : name = "reduce_dependencies"
    · subst h2
      exact ⟨⟨fun _ => by decide, fun _ => ⟨_, rfl⟩⟩, fun h => absurd (by decide) h⟩
    · by_cases h3 : name = "improve_process"
      · subst h3
        exact ⟨⟨fun _ => by decide, fun _ => ⟨_, rfl⟩⟩, fun h => absurd (by decide) h⟩
      · have hfind : SCENARIOS.find? (fun p => p.1 == name) = none := by
          simp only [SCENARIOS, List.find?]
          have b1 : ("add_resource" == name) = false := by
            simp [Ne.symm h1]
          have b2 : ("reduce_dependencies" == name) = false := by
            simp [Ne.symm h2]
          have b3 : ("improve_process" == name) = false := by
            simp [Ne.symm h3]
          simp [b1, b2, b3]
        have herr : simulate_what_if row name = Except.error (unknownScenarioMsg name) := by
          simp [simulate_what_if, hfind]
        constructor
        · constructor
          · rintro ⟨out, hout⟩
            rw [herr] at hout
            exact absurd hout (by simp)
          · intro hmem
            simp only [List.mem_cons, List.mem_singleton, List.not_mem_nil, or_false] at hmem
            rcases hmem with h | h | h <;> [exact absurd h h1; exact absurd h h2; exact absurd h h3]
        · intro _
          exact ⟨herr, by rw [herr]; simp⟩

/-- Witness for C8 on a concrete unrecognized scenario name. -/
theorem c8_unknown_scenario_witness :
    simulate_what_if [] "bogus" = Except.error (unknownScenarioMsg "bogus") ∧
    simulate_what_if [] "bogus" ≠ Except.ok [] :=
  (c8_unknown_scenario [] "bogus").2 (by decide)

-- ------------------------------------------------------------------
-- Component lemmas for the simulator state
-- ------------------------------------------------------------------

@[simp] theorem bump_tasks (st : SimState) : (bump st).tasks = st.tasks := rfl

@[simp] theorem bump_resources (st : SimState) : (bump st).resources = st.resources := rfl

@[simp] theorem bump_logs (st : SimState) : (bump st).logs = st.logs := rfl

@[simp] theorem bump_delayed (st : SimState) : (bump st).delayed_logs = st.delayed_logs := rfl

@[simp] theorem bump_day (st : SimState) : (bump st).day = st.day := rfl

@[simp] theorem bump_noise (st : SimState) : (bump st).noise = st.noise := rfl

@[simp] theorem setTask_tasks (st : SimState) (i : Nat) (t : Task) :
    (setTask st i t).tasks = st.tasks.set i t := rfl

@[simp] theorem setTask_resources (st : SimState) (i : Nat) (t : Task) :
    (setTask st i t).resources = st.resources := rfl

@[simp] theorem setTask_logs (st : SimState) (i : Nat) (t : Task) :
    (setTask st i t).logs = st.logs := rfl

@[simp] theorem setTask_delayed (st : SimState) (i : Nat) (t : Task) :
    (setTask st i t).delayed_logs = st.delayed_logs := rfl

@[simp] theorem setTask_day (st : SimState) (i : Nat) (t : Task) :
    (setTask st i t).day = st.day := rfl

@[simp] theorem setTask_noise (st : SimState) (i : Nat) (t : Task) :
    (setTask st i t).noise = st.noise := rfl

@[simp] theorem setResource_tasks (st : SimState) (j : Nat) (r : Resource) :
    (setResource st j r).tasks = st.tasks := rfl

@[simp] theorem setResource_logs (st : SimState) (j : Nat) (r : Resource) :
    (setResource st j r).logs = st.logs := rfl

@[simp] theorem setResource_delayed (st : SimState) (j : Nat) (r : Resource) :
    (setResource st j r).delayed_logs = st.delayed_logs := rfl

@[simp] theorem setResource_day (st : SimState) (j : Nat) (r : Resource) :
    (setResource st j r).day = st.day := rfl

@[simp] theorem setResource_noise (st : SimState) (j : Nat) (r : Resource) :
    (setResource st j r).noise = st.noise := rfl

@[simp] theorem releaseAll_tasks (st : SimState) : (releaseAll st).tasks = st.tasks := rfl

@[simp] theorem releaseAll_logs (st : SimState) : (releaseAll st).logs = st.logs := rfl

@[simp] theorem releaseAll_delayed (st : SimState) :
    (releaseAll st).delayed_logs = st.delayed_logs := rfl

@[simp] theorem releaseAll_day (st : SimState) : (releaseAll st).day = st.day := rfl

@[simp] theorem dayStart_tasks (st : SimState) : (dayStart st).tasks = st.tasks := rfl

@[simp] theorem dayStart_resources (st : SimState) :
    (dayStart st).resources = st.resources := rfl

@[simp] theorem dayStart_noise (st : SimState) : (dayStart st).noise = st.noise := rfl

@[simp] theorem log_event_tasks (g : Nat → ℚ) (e : EventLog) (st : SimState) :
    (log_event g e st).tasks = st.tasks := by
  unfold log_event
  split
  · rfl
  · split <;> rfl

@[simp] theorem log_event_resources (g : Nat → ℚ) (e : EventLog) (st : SimState) :
    (log_event g e st).resources = st.resources := by
  unfold log_event
  split
  · rfl
  · split <;> rfl

@[simp] theorem log_event_day (g : Nat → ℚ) (e : EventLog) (st : SimState) :
    (log_event g e st).day = st.day := by
  unfold log_event
  split
  · rfl
  · split <;> rfl

@[simp] theorem log_event_noise (g : Nat → ℚ) (e : EventLog) (st : SimState) :
    (log_event g e st).noise = st.noise := by
  unfold log_event
  split
  · rfl
  · split <;> rfl

/-- Any predicate on an event's task_id/type/reason (day-independent) that
holds of the logged event and of every stored log keeps holding after
`log_event`. -/
theorem log_event_all (g : Nat → ℚ) (e : EventLog) (st : SimState)
    (P : EventLog → Prop)
    (hPe : ∀ d : Int, P {e with day := d})
    (hall : ∀ x ∈ st.logs ++ st.delayed_logs, P x) :
    ∀ x ∈ (log_event g e st).logs ++ (log_event g e st).delayed_logs, P x := by
  intro x hx
  unfold log_event at hx
  split at hx
  · exact hall x hx
  · split at hx
    · simp only [List.mem_append] at hx hall
      rcases hx with hx | hx | hx
      · exact hall x (Or.inl hx)
      · exact hall x (Or.inr hx)
      · rcases List.mem_singleton.mp hx with rfl
        exact hPe _
    · simp only [List.mem_append] at hx hall
      rcases hx with (hx | hx) | hx
      · exact hall x (Or.inl hx)
      · have hx' := List.mem_singleton.mp hx
        rw [hx']
        exact hPe e.day
      · exact hall x (Or.inr hx)

-- ------------------------------------------------------------------
-- C1: determinism
-- ------------------------------------------------------------------

/-- C1: two runs of the simulator on identical tasks, resources, seed and
noise configuration produce identical event logs and identical final task
states (actual_start, actual_end, progress and status per task). -/
theorem c1_determinism (tasks₁ tasks₂ : List Task) (res₁ res₂ : List Resource)
    (seed₁ seed₂ : Int) (noise₁ noise₂ : Option Noise) (maxDays : Nat)
    (ht : tasks₁ = tasks₂) (hr : res₁ = res₂) (hs : seed₁ = seed₂)
    (hn : noise₁ = noise₂) :
    (runSeeded tasks₁ res₁ seed₁ noise₁ maxDays).logs =
      (runSeeded tasks₂ res₂ seed₂ noise₂ maxDays).logs ∧
    (runSeeded tasks₁ res₁ seed₁ noise₁ maxDays).tasks.map
        (fun t => (t.task_id, t.actual_start, t.actual_end, t.progress, t.status)) =
      (runSeeded tasks₂ res₂ seed₂ noise₂ maxDays).tasks.map
        (fun t => (t.task_id, t.actual_start, t.actual_end, t.progress, t.status)) := by
  subst ht; subst hr; subst hs; subst hn
  exact ⟨rfl, rfl⟩

def demoTask : Task := ⟨"t1", 5, 1, "high", "dev", [], none, none, 0, "not_started"⟩

def demoTask2 : Task := ⟨"t2", 4, 1, "medium", "dev", ["t1"], none, none, 0, "not_started"⟩

def demoResource : Resource := ⟨"r1", "dev", 1, 8, none⟩

/-- Witness for C1 on a concrete two-task project. -/
theorem c1_determinism_witness :
    (runSeeded [demoTask, demoTask2] [demoResource] 42 none 3).logs =
      (runSeeded [demoTask, demoTask2] [demoResource] 42 none 3).logs ∧
    (runSeeded [demoTask, demoTask2] [demoResource] 42 none 3).tasks.map
        (fun t => (t.task_id, t.actual_start, t.actual_end, t.progress, t.status)) =
      (runSeeded [demoTask, demoTask2] [demoResource] 42 none 3).tasks.map
        (fun t => (t.task_id, t.actual_start, t.actual_end, t.progress, t.status)) :=
  c1_determinism [demoTask, demoTask2] [demoTask, demoTask2] [demoResource]
    [demoResource] 42 42 none none 3 rfl rfl rfl rfl

-- ------------------------------------------------------------------
-- C9: delayed logs are never flagged after ingest + normalize
-- ------------------------------------------------------------------

/-- C9: on the event stream of any simulator run, ingestion records
observed_day equal to day (the delayed-log day was already overwritten at
materialization time), so after normalization every event row has
observed_day = day and is never flagged as a delayed log. -/
theorem c9_no_delayed_log_flags (tasks : List Task) (res : List Resource)
    (seed : Int) (noise : Option Noise) (maxDays : Nat) :
    ((normalize_events
        (ingest_simulation (runSeeded tasks res seed noise maxDays)).events).all
      (fun r => (r.observed_day == r.day) && (r.is_delayed_log == false))) = true := by
  rw [List.all_eq_true]
  intro r hr
  unfold normalize_events at hr
  rw [List.mem_mergeSort] at hr
  rcases List.mem_map.mp hr with ⟨e, he, rfl⟩
  have he' : e ∈ (runSeeded tasks res seed noise maxDays).logs.map
      (fun l => (⟨l.day, l.task_id, l.event_type, l.reason, l.day, false⟩ : EventRow)) := he
  rcases List.mem_map.mp he' with ⟨l, _, rfl⟩
  simp

-- ------------------------------------------------------------------
-- Task-level helper lemmas
-- ------------------------------------------------------------------

@[simp] theorem startTask_task_id (d : Int) (t : Task) :
    (startTask d t).task_id = t.task_id := by
  unfold startTask; split <;> rfl

@[simp] theorem startTask_dependencies (d : Int) (t : Task) :
    (startTask d t).dependencies = t.dependencies := by
  unfold startTask; split <;> rfl

@[simp] theorem startTask_actual_end (d : Int) (t : Task) :
    (startTask d t).actual_end = t.actual_end := by
  unfold startTask; split <;> rfl

@[simp] theorem startTask_progress (d : Int) (t : Task) :
    (startTask d t).progress = t.progress := by
  unfold startTask; split <;> rfl

theorem startTask_status_ne_completed (d : Int) (t : Task)
    (h : t.status ≠ "completed") : (startTask d t).status ≠ "completed" := by
  unfold startTask
  split
  · simp
  · exact h

@[simp] theorem completeTask_task_id (d : Int) (t : Task) :
    (completeTask d t).task_id = t.task_id := rfl

@[simp] theorem completeTask_dependencies (d : Int) (t : Task) :
    (completeTask d t).dependencies = t.dependencies := rfl

@[simp] theorem completeTask_status (d : Int) (t : Task) :
    (completeTask d t).status = "completed" := rfl

@[simp] theorem completeTask_actual_end (d : Int) (t : Task) :
    (completeTask d t).actual_end = some d := rfl

@[simp] theorem completeTask_progress (d : Int) (t : Task) :
    (completeTask d t).progress = t.progress := rfl

-- ------------------------------------------------------------------
-- Dependency-stability machinery
-- ------------------------------------------------------------------

/-- Relation between a task list and its successor list: ids are slotwise
unchanged and completed tasks are wholly untouched. -/
def StatusLink (a b : Task) : Prop :=
  b.task_id = a.task_id ∧ (a.status = "completed" → b = a)

theorem statusLink_refl (a : Task) : StatusLink a a :=
  ⟨rfl, fun _ => rfl⟩

theorem forall2_statusLink_refl (ts : List Task) : List.Forall₂ StatusLink ts ts := by
  induction ts with
  | nil => exact List.Forall₂.nil
  | cons a l ih => exact List.Forall₂.cons (statusLink_refl a) ih

theorem forall2_statusLink_set (ts : List Task) (i : Nat) (task final : Task)
    (hi : ts[i]? = some task) (hlink : StatusLink task final) :
    List.Forall₂ StatusLink ts (ts.set i final) := by
  induction ts generalizing i with
  | nil => simp at hi
  | cons a l ih =>
    cases i with
    | zero =>
      have ha : a = task := by simpa using hi
      subst ha
      exact List.Forall₂.cons hlink (forall2_statusLink_refl l)
    | succ n =>
      have hn : l[n]? = some task := by simpa using hi
      exact List.Forall₂.cons (statusLink_refl a) (ih n hn)

theorem find?_task_cons (a : Task) (l : List Task) (dep : String) :
    List.find? (fun t => t.task_id == dep) (a :: l) =
      if (a.task_id == dep) = true then some a
      else List.find? (fun t => t.task_id == dep) l := by
  cases h : (a.task_id == dep) <;> simp [List.find?, h]

theorem find_completed_stable {ts ts' : List Task}
    (h : List.Forall₂ StatusLink ts ts') (dep : String) (u : Task)
    (hfind : ts.find? (fun t => t.task_id == dep) = some u)
    (hu : u.status = "completed") :
    ts'.find? (fun t => t.task_id == dep) = some u := by
  induction h with
  | nil => simp at hfind
  | @cons a b l l' hab hrest ih =>
    obtain ⟨hid, hcomp⟩ := hab
    by_cases hd : (a.task_id == dep) = true
    · rw [find?_task_cons, if_pos hd] at hfind
      have hau : a = u := by simpa using hfind
      have hba : b = a := hcomp (by rw [hau]; exact hu)
      rw [find?_task_cons, if_pos (by rw [hid]; exact hd), hba, hau]
    · rw [find?_task_cons, if_neg hd] at hfind
      rw [find?_task_cons, if_neg (by rw [hid]; exact hd)]
      exact ih hfind

theorem dependencies_completed_mono {ts ts' : List Task}
    (h : List.Forall₂ StatusLink ts ts') (t : Task)
    (hd : dependencies_completed ts t = true) :
    dependencies_completed ts' t = true := by
  unfold dependencies_completed at hd ⊢
  rw [List.all_eq_true] at hd ⊢
  intro dep hdep
  have hthis := hd dep hdep
  cases hfind : ts.find? (fun u => u.task_id == dep) with
  | none => rw [hfind] at hthis; simp at hthis
  | some u =>
    rw [hfind] at hthis
    have hu : u.status = "completed" := by simpa using hthis
    rw [find_completed_stable h dep u hfind hu]
    simpa using hthis

@[simp] theorem ite_simstate_tasks (c : Prop) [Decidable c] (a b : SimState) :
    (if c then a else b).tasks = if c then a.tasks else b.tasks :=
  apply_ite SimState.tasks c a b

@[simp] theorem ite_simstate_resources (c : Prop) [Decidable c] (a b : SimState) :
    (if c then a else b).resources = if c then a.resources else b.resources :=
  apply_ite SimState.resources c a b

@[simp] theorem ite_simstate_day (c : Prop) [Decidable c] (a b : SimState) :
    (if c then a else b).day = if c then a.day else b.day :=
  apply_ite SimState.day c a b

@[simp] theorem ite_simstate_noise (c : Prop) [Decidable c] (a b : SimState) :
    (if c then a else b).noise = if c then a.noise else b.noise :=
  apply_ite SimState.noise c a b

-- ------------------------------------------------------------------
-- The two task-list invariants and their preservation by one step
-- ------------------------------------------------------------------

/-- Dependency-gating invariant: every in_progress task has all its
dependencies completed. -/
def DepInv (ts : List Task) : Prop :=
  ∀ t ∈ ts, t.status = "in_progress" → dependencies_completed ts t = true

/-- Completion-consistency invariant: completed exactly when actual_end is
set, and completed implies progress at least 1. -/
def CInv (ts : List Task) : Prop :=
  ∀ t ∈ ts, (t.status = "completed" ↔ t.actual_end.isSome) ∧
    (t.status = "completed" → 1 ≤ t.progress)

theorem depInv_set_step (ts : List Task) (i : Nat) (task final : Task)
    (hi : ts[i]? = some task) (hc : ¬ task.status = "completed")
    (hid : final.task_id = task.task_id)
    (hdeps : final.dependencies = task.dependencies)
    (hfs : final.status = "in_progress" → dependencies_completed ts task = true)
    (hinv : DepInv ts) : DepInv (ts.set i final) := by
  have hlink : StatusLink task final := ⟨hid, fun hcomp => absurd hcomp hc⟩
  have hf2 : List.Forall₂ StatusLink ts (ts.set i final) :=
    forall2_statusLink_set ts i task final hi hlink
  intro t ht hstat
  rcases List.mem_or_eq_of_mem_set ht with htm | heq
  · exact dependencies_completed_mono hf2 t (hinv t htm hstat)
  · subst heq
    have h2 : dependencies_completed ts t = true := by
      unfold dependencies_completed
      rw [hdeps]
      exact hfs hstat
    exact dependencies_completed_mono hf2 t h2

theorem cInv_set_step (ts : List Task) (i : Nat) (task final : Task)
    (hi : ts[i]? = some task) (hc : ¬ task.status = "completed")
    (hG : final.status = "completed" → final.actual_end.isSome ∧ 1 ≤ final.progress)
    (hH : ¬ final.status = "completed" → final.actual_end = task.actual_end)
    (hinv : CInv ts) : CInv (ts.set i final) := by
  intro t ht
  rcases List.mem_or_eq_of_mem_set ht with htm | heq
  · exact hinv t htm
  · subst heq
    have htask : task ∈ ts := List.getElem?_mem hi
    have hte : task.actual_end = none := by
      rcases hinv task htask with ⟨hiff, _⟩
      cases he : task.actual_end with
      | none => rfl
      | some d => exact absurd (hiff.mpr (by simp [he])) hc
    by_cases hfc : t.status = "completed"
    · rcases hG hfc with ⟨hsome, hprog⟩
      exact ⟨⟨fun _ => hsome, fun _ => hfc⟩, fun _ => hprog⟩
    · have he : t.actual_end = none := by rw [hH hfc, hte]
      refine ⟨⟨fun hx => absurd hx hfc, fun hx => ?_⟩, fun hx => absurd hx hfc⟩
      rw [he] at hx
      simp at hx

set_option maxHeartbeats 1600000 in
/-- One per-task step preserves the dependency-gating invariant. -/
theorem stepTask_preserves_depInv (g : Nat → ℚ) (st : SimState) (i : Nat)
    (h : DepInv st.tasks) : DepInv ((stepTask g st i).tasks) := by
  cases hi : st.tasks[i]? with
  | none => simpa [stepTask, hi] using h
  | some task =>
    by_cases hc : task.status = "completed"
    · simpa [stepTask, hi, hc] using h
    · simp only [stepTask, hi, if_neg hc]
      by_cases hext : rand g st < st.noise.external_block_prob
      · rw [if_pos hext]
        simp only [log_event_tasks, setTask_tasks, bump_tasks]
        exact depInv_set_step st.tasks i task _ hi hc rfl rfl
          (by intro hx; simp at hx) h
      · rw [if_neg hext]
        by_cases hdep : dependencies_completed st.tasks task = false
        · rw [if_pos hdep]
          simp only [log_event_tasks, setTask_tasks, bump_tasks]
          exact depInv_set_step st.tasks i task _ hi hc rfl rfl
            (by intro hx; simp at hx) h
        · rw [if_neg hdep]
          have hdept : dependencies_completed st.tasks task = true := by
            cases hx : dependencies_completed st.tasks task
            · exact absurd hx hdep
            · rfl
          repeat' split
          all_goals (
            simp only [log_event_tasks, setTask_tasks, setResource_tasks, bump_tasks,
              List.set_set]
            refine depInv_set_step st.tasks i task _ hi hc ?_ ?_ ?_ h <;>
              first
              | (simp; done)
              | exact fun _ => hdept)

set_option maxHeartbeats 1600000 in
/-- One per-task step preserves the completion-consistency invariant. -/
theorem stepTask_preserves_cInv (g : Nat → ℚ) (st : SimState) (i : Nat)
    (h : CInv st.tasks) : CInv ((stepTask g st i).tasks) := by
  cases hi : st.tasks[i]? with
  | none => simpa [stepTask, hi] using h
  | some task =>
    by_cases hc : task.status = "completed"
    · simpa [stepTask, hi, hc] using h
    · simp only [stepTask, hi, if_neg hc]
      repeat' split
      all_goals (
        simp only [log_event_tasks, setTask_tasks, setResource_tasks, bump_tasks,
          List.set_set]
        refine cInv_set_step st.tasks i task _ hi hc ?_ ?_ h <;>
          first
          | (intro hx; simp at hx; done)
          | (intro hx
             exact absurd (by simpa using hx) (startTask_status_ne_completed st.day task hc))
          | (intro hx; exact absurd rfl hx)
          | (rename_i hcompl
             intro hx
             exact ⟨by simp, by simpa using hcompl⟩)
          | (intro hx; simp; done))

-- ------------------------------------------------------------------
-- The blocked-reason log invariant (C10)
-- ------------------------------------------------------------------

/-- The reasons the simulator ever attaches to a `blocked` event. -/
def BlockedReasonOK (e : EventLog) : Prop :=
  e.event_type = "blocked" →
    e.reason ∈ [some "external_block", some "dependencies",
      some "no_resource_available", some "random_disruption"]

/-- All stored logs (visible and delayed) satisfy `BlockedReasonOK`. -/
def LogsOK (st : SimState) : Prop :=
  ∀ x ∈ st.logs ++ st.delayed_logs, BlockedReasonOK x

theorem logsOK_log_event (g : Nat → ℚ) (e : EventLog) (st : SimState)
    (he : BlockedReasonOK e) (h : LogsOK st) : LogsOK (log_event g e st) :=
  log_event_all g e st BlockedReasonOK (fun _ => he) h

theorem brOK_start (d : Int) (tid : String) :
    BlockedReasonOK ⟨d, tid, "start", none⟩ := by intro hx; simp at hx

theorem brOK_progress (d : Int) (tid : String) (r : Option String) :
    BlockedReasonOK ⟨d, tid, "progress", r⟩ := by intro hx; simp at hx

theorem brOK_rework (d : Int) (tid : String) (r : Option String) :
    BlockedReasonOK ⟨d, tid, "rework", r⟩ := by intro hx; simp at hx

theorem brOK_complete (d : Int) (tid : String) (r : Option String) :
    BlockedReasonOK ⟨d, tid, "complete", r⟩ := by intro hx; simp at hx

theorem brOK_ext (d : Int) (tid : String) :
    BlockedReasonOK ⟨d, tid, "blocked", some "external_block"⟩ := by intro _; simp

theorem brOK_dep (d : Int) (tid : String) :
    BlockedReasonOK ⟨d, tid, "blocked", some "dependencies"⟩ := by intro _; simp

theorem brOK_nores (d : Int) (tid : String) :
    BlockedReasonOK ⟨d, tid, "blocked", some "no_resource_available"⟩ := by intro _; simp

theorem brOK_dis (d : Int) (tid : String) :
    BlockedReasonOK ⟨d, tid, "blocked", some "random_disruption"⟩ := by intro _; simp

set_option maxHeartbeats 1600000 in
/-- One per-task step only ever logs blocked events with one of the four
blocked reasons; in particular it never emits blocked/skill_mismatch. -/
theorem stepTask_preserves_logsOK (g : Nat → ℚ) (st : SimState) (i : Nat)
    (h : LogsOK st) : LogsOK (stepTask g st i) := by
  cases hi : st.tasks[i]? with
  | none => simpa [stepTask, hi] using h
  | some task =>
    by_cases hc : task.status = "completed"
    · simpa [stepTask, hi, hc] using h
    · simp only [stepTask, hi, if_neg hc]
      repeat' split
      all_goals (
        repeat'
          first
          | exact h
          | apply logsOK_log_event _ _ _ (brOK_start _ _)
          | apply logsOK_log_event _ _ _ (brOK_progress _ _ _)
          | apply logsOK_log_event _ _ _ (brOK_rework _ _ _)
          | apply logsOK_log_event _ _ _ (brOK_complete _ _ _)
          | apply logsOK_log_event _ _ _ (brOK_ext _ _)
          | apply logsOK_log_event _ _ _ (brOK_dep _ _)
          | apply logsOK_log_event _ _ _ (brOK_nores _ _)
          | apply logsOK_log_event _ _ _ (brOK_dis _ _))

theorem logsOK_dayStart (st : SimState) (h : LogsOK st) : LogsOK (dayStart st) := by
  intro x hx
  apply h
  simp only [dayStart, List.mem_append] at hx ⊢
  rcases hx with (hx | hx) | hx
  · exact Or.inl hx
  · exact Or.inr (List.mem_of_mem_filter hx)
  · exact Or.inr (List.mem_of_mem_filter hx)

theorem logsOK_releaseAll (st : SimState) (h : LogsOK st) : LogsOK (releaseAll st) := h

-- ------------------------------------------------------------------
-- Reachability utilities
-- ------------------------------------------------------------------

theorem simReachable_trans {g : Nat → ℚ} {a b c : SimState}
    (hab : SimReachable g a b) (hbc : SimReachable g b c) : SimReachable g a c := by
  induction hbc with
  | refl => exact hab
  | flush _ ih => exact SimReachable.flush ih
  | step i _ ih => exact SimReachable.step i ih
  | release _ ih => exact SimReachable.release ih

theorem simReachable_simulate_day (g : Nat → ℚ) (st : SimState) :
    SimReachable g st (simulate_day g st) := by
  have hfold : ∀ (l : List Nat) (s0 : SimState), SimReachable g st s0 →
      SimReachable g st (l.foldl (stepTask g) s0) := by
    intro l
    induction l with
    | nil => intro s0 h; exact h
    | cons a tl ih => intro s0 h; exact ih _ (SimReachable.step a h)
  exact SimReachable.release
    (hfold _ _ (SimReachable.flush (SimReachable.refl st)))

theorem simReachable_runAux (g : Nat → ℚ) (st : SimState) (n : Nat) :
    SimReachable g st (runAux g st n) := by
  induction n generalizing st with
  | zero => exact SimReachable.refl st
  | succ n ih =>
    simp only [runAux]
    split
    · exact simReachable_simulate_day g st
    · exact simReachable_trans (simReachable_simulate_day g st) (ih _)

/-- A state predicate preserved by each micro-step holds in every reachable
state. -/
theorem simReachable_preserves {g : Nat → ℚ} {P : SimState → Prop}
    (hday : ∀ s, P s → P (dayStart s))
    (hstep : ∀ s i, P s → P (stepTask g s i))
    (hrel : ∀ s, P s → P (releaseAll s))
    {s s' : SimState} (h : SimReachable g s s') (hp : P s) : P s' := by
  induction h with
  | refl => exact hp
  | flush _ ih => exact hday _ ih
  | step i _ ih => exact hstep _ i ih
  | release _ ih => exact hrel _ ih

theorem mem_dedupTasks {u : Task} {ts : List Task} (h : u ∈ dedupTasks ts) : u ∈ ts := by
  have key : ∀ (l : List Task) (acc : List Task), u ∈ l.foldl
      (fun acc t =>
        if acc.any (fun v => v.task_id == t.task_id) then
          acc.map (fun v => if v.task_id == t.task_id then t else v)
        else acc ++ [t]) acc → u ∈ acc ∨ u ∈ l := by
    intro l
    induction l with
    | nil => intro acc h; exact Or.inl h
    | cons t tl ih =>
      intro acc h
      rcases ih _ h with hm | hm
      · dsimp only at hm
        by_cases hany : acc.any (fun v => v.task_id == t.task_id)
        · rw [if_pos hany] at hm
          rcases List.mem_map.mp hm with ⟨v, hv, hveq⟩
          by_cases hvt : (v.task_id == t.task_id) = true
          · rw [if_pos hvt] at hveq
            exact Or.inr (by rw [← hveq]; exact List.mem_cons_self t tl)
          · rw [if_neg hvt] at hveq
            exact Or.inl (by rw [← hveq]; exact hv)
        · rw [if_neg hany] at hm
          rcases List.mem_append.mp hm with hm | hm
          · exact Or.inl hm
          · exact Or.inr (by rw [List.mem_singleton.mp hm]; exact List.mem_cons_self t tl)
      · exact Or.inr (List.mem_cons_of_mem t hm)
  rcases key ts [] h with hm | hm
  · exact absurd hm (List.not_mem_nil u)
  · exact hm

-- ------------------------------------------------------------------
-- C2: dependency gating
-- ------------------------------------------------------------------

/-- C2: starting from tasks that are all NOT_STARTED, in every state the
simulator can reach no task is in_progress while any of its dependencies is
not completed; moreover the per-day step, when the external-block draw does
not fire and the dependency gate fails, blocks the task (reason
dependencies) without any start/resume transition: the task's only change
is status := blocked, its actual_start untouched. -/
theorem c2_dependency_gating :
    (∀ (tasks : List Task) (res : List Resource) (seed : Int)
       (noise : Option Noise) (st' : SimState),
       (∀ t ∈ tasks, t.status = "not_started") →
       SimReachable (seedStream seed) (mkSimulator tasks res noise) st' →
       ∀ t ∈ st'.tasks, t.status = "in_progress" →
         dependencies_completed st'.tasks t = true) ∧
    (∀ (g : Nat → ℚ) (st : SimState) (i : Nat) (task : Task),
       st.tasks[i]? = some task → ¬ task.status = "completed" →
       ¬ rand g st < st.noise.external_block_prob →
       dependencies_completed st.tasks task = false →
       (stepTask g st i).tasks = st.tasks.set i {task with status := "blocked"}) := by
  constructor
  · intro tasks res seed noise st' hinit hreach
    refine @simReachable_preserves (seedStream seed) (fun s => DepInv s.tasks)
      ?_ ?_ ?_ _ _ hreach ?_
    · intro s hs; exact hs
    · intro s i hs; exact stepTask_preserves_depInv _ s i hs
    · intro s hs; exact hs
    · intro t ht hstat
      have hns := hinit t (mem_dedupTasks ht)
      rw [hns] at hstat
      simp at hstat
  · intro g st i task hi hc hext hdep
    simp only [stepTask, hi, if_neg hc, if_neg hext, if_pos hdep]
    simp

/-- Witness for C2 on a concrete two-task project. -/
theorem c2_dependency_gating_witness :
    (∀ t ∈ [demoTask, demoTask2], t.status = "not_started") ∧
    (∀ t ∈ (mkSimulator [demoTask, demoTask2] [demoResource] none).tasks,
       t.status = "in_progress" →
       dependencies_completed
         (mkSimulator [demoTask, demoTask2] [demoResource] none).tasks t = true) :=
  ⟨by decide,
   c2_dependency_gating.1 [demoTask, demoTask2] [demoResource] 42 none _
     (by decide) (SimReachable.refl _)⟩

-- ------------------------------------------------------------------
-- C3: completion consistency
-- ------------------------------------------------------------------

/-- C3: for every run starting from tasks in the default execution state
(status not_started, actual_end unset), every final task is completed
exactly when its actual_end is set and its progress is at least 1. -/
theorem c3_completion_consistency (tasks : List Task) (res : List Resource)
    (seed : Int) (noise : Option Noise) (maxDays : Nat)
    (hinit : ∀ t ∈ tasks, t.status = "not_started" ∧ t.actual_end = none) :
    ∀ t ∈ (runSeeded tasks res seed noise maxDays).tasks,
      (t.status = "completed" ↔ t.actual_end.isSome ∧ 1 ≤ t.progress) := by
  have hC : CInv (runSeeded tasks res seed noise maxDays).tasks := by
    refine @simReachable_preserves (seedStream seed) (fun s => CInv s.tasks) ?_ ?_ ?_ _ _
      (simReachable_runAux (seedStream seed) (mkSimulator tasks res noise) maxDays) ?_
    · intro s hs; exact hs
    · intro s i hs; exact stepTask_preserves_cInv _ s i hs
    · intro s hs; exact hs
    · intro t ht
      rcases hinit t (mem_dedupTasks ht) with ⟨hs, he⟩
      refine ⟨?_, ?_⟩
      · rw [hs, he]; simp
      · rw [hs]; intro hx; simp at hx
  intro t ht
  rcases hC t ht with ⟨hiff, hprog⟩
  constructor
  · intro hcomp; exact ⟨hiff.mp hcomp, hprog hcomp⟩
  · rintro ⟨hsome, _⟩; exact hiff.mpr hsome

/-- Witness for C3 on a concrete two-task project run. -/
theorem c3_completion_consistency_witness :
    (∀ t ∈ [demoTask, demoTask2], t.status = "not_started" ∧ t.actual_end = none) ∧
    (∀ t ∈ (runSeeded [demoTask, demoTask2] [demoResource] 42 none 3).tasks,
       (t.status = "completed" ↔ t.actual_end.isSome ∧ 1 ≤ t.progress)) :=
  ⟨by decide,
   c3_completion_consistency [demoTask, demoTask2] [demoResource] 42 none 3 (by decide)⟩

-- ------------------------------------------------------------------
-- C10: no blocked/skill_mismatch event is ever emitted
-- ------------------------------------------------------------------

/-- C10: in every run, no blocked event ever carries reason skill_mismatch
(the mismatch is only the reason of a progress event), so the per-reason
blocked count for skill_mismatch computed by the feature engine is 0 for
every task on simulator-generated events. -/
theorem c10_no_skill_mismatch_blocks (tasks : List Task) (res : List Resource)
    (seed : Int) (noise : Option Noise) (maxDays : Nat) :
    (∀ tid : String,
       blockReasonCount
         (ingest_simulation (runSeeded tasks res seed noise maxDays)).events
         tid "skill_mismatch" = 0) ∧
    ((runSeeded tasks res seed noise maxDays).logs ++
        (runSeeded tasks res seed noise maxDays).delayed_logs).all
      (fun e => !(e.event_type == "blocked" && e.reason == some "skill_mismatch")) = true := by
  have hL : LogsOK (runSeeded tasks res seed noise maxDays) := by
    refine @simReachable_preserves (seedStream seed) LogsOK ?_ ?_ ?_ _ _
      (simReachable_runAux (seedStream seed) (mkSimulator tasks res noise) maxDays) ?_
    · exact logsOK_dayStart
    · intro s i hs; exact stepTask_preserves_logsOK _ s i hs
    · exact logsOK_releaseAll
    · intro x hx; simp [mkSimulator] at hx
  have hkey : ∀ e ∈ (runSeeded tasks res seed noise maxDays).logs ++
      (runSeeded tasks res seed noise maxDays).delayed_logs,
      (e.event_type == "blocked" && e.reason == some "skill_mismatch") = false := by
    intro e he
    have hbr := hL e he
    by_cases hb : e.event_type = "blocked"
    · have hmem := hbr hb
      simp only [List.mem_cons, List.mem_singleton, List.not_mem_nil, or_false] at hmem
      rcases hmem with hr | hr | hr | hr <;> simp [hb, hr]
    · simp [hb]
  constructor
  · intro tid
    unfold blockReasonCount
    rw [List.length_eq_zero, List.filter_eq_nil_iff]
    intro r hr
    rcases List.mem_map.mp hr with ⟨l, hl, hrl⟩
    have hfalse := hkey l (List.mem_append.mpr (Or.inl hl))
    intro hp
    rw [← hrl] at hp
    simp only [Bool.and_eq_true] at hp
    rcases hp with ⟨⟨h1, _⟩, h3⟩
    simp [h1, h3] at hfalse
  · rw [List.all_eq_true]
    intro e he
    simp [hkey e he]

end ProjectDelayRisk
